import Mathlib

set_option maxHeartbeats 1000000

/-!
Verification development for `MMRPredict.py` (class `MMRPredictor`): a shallow
embedding of the preprocessing and modelling pipeline, followed by theorems
about its behaviour.

Design of the embedding:
* A pandas `DataFrame` is a list of named columns (`DF`); a column (`Col`) is
  either string-valued or real-valued (the float arithmetic of the source is
  idealised over `ℝ`).  pandas guarantees that all columns of one frame have
  the same length; theorems assume this where they need it.
* Python exceptions are values of `Err`; each method returns the (possibly
  partially) updated object state paired with `Except Err α`.
* Filesystem effects (directory creation, saving a figure) are modelled by a
  boolean parameter that says whether the write succeeds.
* The module-level name `data` read by `split_data` is modelled by an
  `Option DF` parameter: `none` when the module was imported (the name is
  unbound, a `NameError`), `some d` when the script body bound it to `d`.
-/

/-- Python exceptions observed by the pipeline: pandas `KeyError`,
Python `ValueError` (also the kind every explicit `raise` in the class uses),
Python `NameError` (unbound global), the sklearn/xgboost `NotFittedError`,
and an OS-level failure while writing a plot. -/
inductive Err where
  | keyError (col : String)
  | valueError (msg : String)
  | nameError (n : String)
  | notFittedError
  | ioError

/-- One pandas column: either string-valued (raw categorical data) or
real-valued (numeric data, label codes, scaled values). -/
inductive Col where
  | strCol (vals : List String)
  | numCol (vals : List ℝ)

/-- A pandas DataFrame: an ordered association list of named columns. -/
abbrev DF := List (String × Col)

/-- Number of entries in a column. -/
def Col.clen : Col → ℕ
  | .strCol v => v.length
  | .numCol v => v.length

/-- Column lookup, `df[c]` on the right-hand side of an expression:
the first column named `c`, if any. -/
def DF.getCol : DF → String → Option Col
  | [], _ => none
  | (n, v) :: tl, c => if n = c then some v else DF.getCol tl c

/-- Column assignment `df[c] = v`: replaces the column named `c` in place,
appending a new column at the end when `c` is absent (pandas semantics). -/
def DF.setCol : DF → String → Col → DF
  | [], c, v => [(c, v)]
  | (n, w) :: tl, c, v =>
    if n = c then (c, v) :: DF.setCol tl c v else (n, w) :: DF.setCol tl c v

/-- The column labels of the frame, in order. -/
def DF.colNames (df : DF) : List String := df.map Prod.fst

/-- Subselection `df[cols]` by a list of labels: pandas raises `KeyError`
when a requested label is absent, otherwise returns the columns in the
requested order, dropping all others. -/
def DF.selectCols (df : DF) : List String → Except Err DF
  | [] => .ok []
  | c :: cs =>
    match df.getCol c with
    | none => .error (.keyError c)
    | some v =>
      match df.selectCols cs with
      | .ok tl => .ok ((c, v) :: tl)
      | .error e => .error e

/-- `df.drop(columns=c)`: removes the column named `c`; pandas raises
`KeyError` when it is absent. -/
def DF.dropCol (df : DF) (c : String) : Except Err DF :=
  if df.any (fun p => p.1 == c) then .ok (df.filter (fun p => ¬ p.1 == c))
  else .error (.keyError c)

/-- Number of rows of the frame (the length of its first column). -/
def DF.nrows : DF → ℕ
  | [] => 0
  | (_, v) :: _ => v.clen

/-- The entries of a column at a list of row positions. -/
def Col.atIdxs (c : Col) (idxs : List ℕ) : Col :=
  match c with
  | .strCol v => .strCol (idxs.filterMap v.get?)
  | .numCol v => .numCol (idxs.filterMap v.get?)

/-- Row subselection of a frame at a list of row positions. -/
def DF.rowsAt (df : DF) (idxs : List ℕ) : DF :=
  df.map (fun p => (p.1, p.2.atIdxs idxs))

/-- The values of a real-valued column (`[]` when absent or string-valued);
only used to STATE results about frames whose columns are known to be
real-valued. -/
def DF.colNum (df : DF) (c : String) : List ℝ :=
  match df.getCol c with
  | some (.numCol xs) => xs
  | _ => []

/-- Lexicographic comparison of character lists by code point, the order
`numpy.unique` sorts strings in. -/
def charListLe : List Char → List Char → Bool
  | [], _ => true
  | _ :: _, [] => false
  | a :: as, b :: bs =>
    if a.toNat = b.toNat then charListLe as bs else Nat.ble a.toNat b.toNat

/-- Lexicographic string comparison by code point. -/
def strLe (a b : String) : Bool := charListLe a.data b.data

/-- Insert a string into a lexicographically sorted list. -/
def insertStr (a : String) : List String → List String
  | [] => [a]
  | b :: bs => if strLe a b then a :: b :: bs else b :: insertStr a bs

/-- Sort a list of strings lexicographically (insertion sort). -/
def sortStrs : List String → List String
  | [] => []
  | a :: as => insertStr a (sortStrs as)

/-- Remove duplicate strings, keeping first occurrences. -/
def dedupStrs : List String → List String
  | [] => []
  | a :: as => a :: (dedupStrs as).filter (fun b => !(b == a))

/-- The classes learned by `sklearn.preprocessing.LabelEncoder.fit` on a
string column: the distinct observed values in ascending (lexicographic)
order, as `numpy.unique` produces them. -/
def labelClasses (ss : List String) : List String := sortStrs (dedupStrs ss)

/-- The integer codes `LabelEncoder.fit_transform` writes back for a string
column: each value is replaced by its index in the sorted class list. -/
def labelCodes (ss : List String) : List ℝ :=
  ss.map (fun s => (((labelClasses ss).indexOf s : ℕ) : ℝ))

/-- `LabelEncoder.transform` on a single value: the code of `s` under the
retained classes, or `none` (sklearn raises) when `s` is not a known class. -/
def labelTransform (classes : List String) (s : String) : Option ℕ :=
  if s ∈ classes then some (classes.indexOf s) else none

/-- Mean of a list of reals, as `numpy` computes it for one column. -/
noncomputable def listMean (xs : List ℝ) : ℝ := xs.sum / xs.length

/-- Population variance of a list of reals (`StandardScaler` stores this as
`var_`; its `scale_` is the square root). -/
noncomputable def listVar (xs : List ℝ) : ℝ :=
  ((xs.map (fun x => (x - listMean xs) ^ 2)).sum) / xs.length

/-- `StandardScaler` transform of one column: subtract the column mean and
divide by the column standard deviation, where a zero standard deviation is
replaced by 1 (sklearn `_handle_zeros_in_scale`). -/
noncomputable def standardizeCol (xs : List ℝ) : List ℝ :=
  xs.map (fun x => (x - listMean xs) / (if listVar xs = 0 then 1 else Real.sqrt (listVar xs)))

/-- The per-column `(mean_, var_)` parameters a `StandardScaler` holds after
being fit on a matrix of columns. -/
noncomputable def scalerParams (m : List (List ℝ)) : List (ℝ × ℝ) :=
  m.map (fun xs => (listMean xs, listVar xs))

/-- Hyperparameters of `RandomForestRegressor` that the class touches. -/
structure RFParams where
  n_estimators : ℕ
  max_depth : Option ℕ
  min_samples_split : ℕ
  min_samples_leaf : ℕ
  random_state : ℕ

/-- Hyperparameters of `XGBRegressor` that the class touches (`subsample`
defaults to 1 at construction and is varied only by the grid search). -/
structure GBParams where
  n_estimators : ℕ
  learning_rate : ℚ
  max_depth : ℕ
  subsample : ℚ
  random_state : ℕ

/-- A regressor object: its kind, hyperparameters, and whether `fit` has run.
The learned trees/boosters themselves are opaque library state and are
abstracted by the `learner` oracle passed to training-time operations. -/
inductive Model where
  | rf (params : RFParams) (fitted : Bool)
  | gb (params : GBParams) (fitted : Bool)

/-- The same regressor after `fit` (grid search refits the best candidate). -/
def Model.setFitted : Model → Model
  | .rf q _ => .rf q true
  | .gb q _ => .gb q true

/-- Whether the regressor has been fit. -/
def Model.isFitted : Model → Bool
  | .rf _ b => b
  | .gb _ b => b

/-- The declared numeric feature columns (`self.numerical_cols`). -/
def numerical_cols : List String := ["condition", "car_age", "mileage"]

/-- The declared categorical feature columns (`self.categorical_cols`). -/
def categorical_cols : List String :=
  ["brand", "market_model", "body_type", "transmission", "state", "interior", "color"]

/-- The target column name (`self.mmr`). -/
def mmr_col : String := "mmr"

/-- The state of one `MMRPredictor` object: its frame, the retained
`LabelEncoder` (as the classes of its last fit; `none` before any encoder is
created), the retained `StandardScaler` (as its fitted per-column parameters;
`none` before any scaler is fit), the model-kind string, and the regressor
(`None` only transiently inside `__init__`). -/
structure Predictor where
  df : DF
  encoder : Option (List String)
  scaler : Option (List (ℝ × ℝ))
  model_type : String
  model : Option Model

/-- The message of the `ValueError` raised by `normalize_features` when the
encoder is unset. -/
def seqMsg : String :=
  "Categorical features must be encoded before normalization. Call encode_categorical_features() first."

/-- `MMRPredictor.__init__(data, model_type)`: recognises exactly
`random_forest` (a `RandomForestRegressor` with `n_estimators=100`,
`max_depth=None`, `min_samples_split=2`, `min_samples_leaf=1`,
`random_state=42`) and `gradient_boosting` (an `XGBRegressor` with
`n_estimators=100`, `learning_rate=0.1`, `max_depth=3`, `random_state=42`),
and raises `ValueError` on anything else. -/
def MMRPredictor.init (data : DF) (model_type : String) : Except Err Predictor :=
  if model_type = "random_forest" then
    .ok ⟨data, none, none, model_type, some (.rf ⟨100, none, 2, 1, 42⟩ false)⟩
  else if model_type = "gradient_boosting" then
    .ok ⟨data, none, none, model_type, some (.gb ⟨100, 1/10, 3, 1, 42⟩ false)⟩
  else
    .error (.valueError ("Unknown model type: " ++ model_type ++
      ". Choose random_forest or gradient_boosting."))

/-- `select_features`: `self.df = self.df[numerical + categorical + [mmr]]`. -/
def select_features (p : Predictor) : Predictor × Except Err Unit :=
  match p.df.selectCols (numerical_cols ++ categorical_cols ++ [mmr_col]) with
  | .ok df' => ({ p with df := df' }, .ok ())
  | .error e => (p, .error e)

/-- The loop body of `encode_categorical_features`: for each declared
categorical column, `self.df[col] = self.encoder.fit_transform(self.df[col])`
(the right-hand side raises `KeyError` when the column is absent), followed
by the membership check of the source itself, which raises `ValueError` when `col`
is not among the columns — a check performed only after the assignment.
A declared categorical column that is already numeric is outside this
embedding (in the data model categorical fields are string-valued) and is
mapped to a library error. -/
def encodeLoop : Predictor → List String → Predictor × Except Err Unit
  | p, [] => (p, .ok ())
  | p, c :: cs =>
    match p.df.getCol c with
    | none => (p, .error (.keyError c))
    | some (.numCol _) => (p, .error (.valueError "unsupported column dtype"))
    | some (.strCol ss) =>
      let p' : Predictor :=
        { p with df := p.df.setCol c (.numCol (labelCodes ss)),
                 encoder := some (labelClasses ss) }
      if c ∈ p'.df.colNames then encodeLoop p' cs
      else (p', .error (.valueError ("Column " ++ c ++ " not found in DataFrame.")))

/-- `encode_categorical_features`: creates one fresh `LabelEncoder`
(modelled as `some []`, a fitted-on-nothing class list) and refits it on
each declared categorical column in turn, writing the codes into the frame. -/
def encode_categorical_features (p : Predictor) : Predictor × Except Err Unit :=
  encodeLoop { p with encoder := some [] } categorical_cols

/-- Subselection `df[cols]` followed by the numeric conversion that
`StandardScaler.fit_transform` performs: `KeyError` when a column is absent,
`ValueError` when a selected column still holds strings. -/
def DF.getNumMatrix (df : DF) : List String → Except Err (List (List ℝ))
  | [] => .ok []
  | c :: cs =>
    match df.getCol c with
    | none => .error (.keyError c)
    | some (.strCol _) => .error (.valueError "could not convert string to float")
    | some (.numCol xs) =>
      match df.getNumMatrix cs with
      | .ok m => .ok (xs :: m)
      | .error e => .error e

/-- Write a matrix of real columns back into the frame under the given
labels (`self.df[cols] = scaled`). -/
def DF.setColsNum (df : DF) : List String → List (List ℝ) → DF
  | [], _ => df
  | _ :: _, [] => df
  | c :: cs, xs :: m => (df.setCol c (.numCol xs)).setColsNum cs m

/-- `normalize_features`: raises the sequencing `ValueError` when
`self.encoder is None`; otherwise fits a fresh `StandardScaler` on the
numeric columns and writes the scaled values back, then REFITS the same
scaler object on the (already integer-coded) categorical columns and writes
those scaled values back, so the scaler retained on the object holds the
parameters of the categorical fit.  `fit` raises when given no rows. -/
noncomputable def normalize_features (p : Predictor) : Predictor × Except Err Unit :=
  match p.encoder with
  | none => (p, .error (.valueError seqMsg))
  | some _ =>
    match p.df.getNumMatrix numerical_cols with
    | .error e => (p, .error e)
    | .ok numM =>
      if numM.any List.isEmpty then
        (p, .error (.valueError "Found array with 0 samples"))
      else
        let p1 : Predictor :=
          { p with scaler := some (scalerParams numM),
                   df := p.df.setColsNum numerical_cols (numM.map standardizeCol) }
        match p1.df.getNumMatrix categorical_cols with
        | .error e => (p1, .error e)
        | .ok catM =>
          if catM.any List.isEmpty then
            (p1, .error (.valueError "Found array with 0 samples"))
          else
            ({ p1 with scaler := some (scalerParams catM),
                       df := p1.df.setColsNum categorical_cols (catM.map standardizeCol) },
             .ok ())

/-- `generate_feature_correlation_matrix`: a reporting side effect only — it
computes a correlation heatmap and writes it under `dataviz/`; the object
state is unchanged, and the method fails exactly when the filesystem write
fails (`io = false`). -/
def generate_feature_correlation_matrix (io : Bool) (p : Predictor) :
    Predictor × Except Err Unit :=
  (p, if io then .ok () else .error .ioError)

/-- The first three stages of `preprocess_data`, in source order:
`select_features`, `encode_categorical_features`, `normalize_features`,
each stopping the chain (with the state reached so far) on failure. -/
noncomputable def preprocess_stages (p : Predictor) : Predictor × Except Err Unit :=
  let r1 := select_features p
  match r1.2 with
  | .error e => (r1.1, .error e)
  | .ok _ =>
    let r2 := encode_categorical_features r1.1
    match r2.2 with
    | .error e => (r2.1, .error e)
    | .ok _ => normalize_features r2.1

/-- `preprocess_data`: runs select, encode, normalize, then the correlation
plot, and returns `self.df`; any exception propagates. -/
noncomputable def preprocess_data (io : Bool) (p : Predictor) :
    Predictor × Except Err DF :=
  let r3 := preprocess_stages p
  match r3.2 with
  | .error e => (r3.1, .error e)
  | .ok _ =>
    let r4 := generate_feature_correlation_matrix io r3.1
    match r4.2 with
    | .error e => (r4.1, .error e)
    | .ok _ => (r4.1, .ok r4.1.df)

/-- A linear congruential step; together with `permutation42` this models the
numpy seeded shuffle inside `train_test_split` as a fixed deterministic
permutation keyed by the seed (the exact numpy permutation is library
internals; the claims concern determinism, sizes, and provenance). -/
def lcgStep (s : ℕ) : ℕ := (1103515245 * s + 12345) % 2147483648

/-- The deterministic row permutation used by the split for a given seed. -/
def seededPerm (seed n : ℕ) : List ℕ :=
  (List.insertionSort (fun a b => a.1 ≤ b.1)
    ((List.range n).map (fun i => (lcgStep (seed + 31 * i), i)))).map Prod.snd

/-- `sklearn.model_selection.train_test_split` with `test_size=0.2` takes
`ceil(0.2 * n)` test rows. -/
def testCount (n : ℕ) : ℕ := (n + 4) / 5

/-- `train_test_split(X, y, test_size=0.2, random_state=42)`: the first
`testCount n` positions of the seeded permutation are the test rows, the
rest are the training rows. -/
def train_test_split (X : DF) (y : Col) : DF × DF × Col × Col :=
  let n := X.nrows
  let perm := seededPerm 42 n
  let testIdx := perm.take (testCount n)
  let trainIdx := perm.drop (testCount n)
  (X.rowsAt trainIdx, X.rowsAt testIdx, y.atIdxs trainIdx, y.atIdxs testIdx)

/-- `split_data`: `X = self.df.drop(columns=mmr)` but
`y = data[mmr]` — the MODULE-LEVEL name `data` (bound only when the file
runs as a script), not `self.df`; `globalData` models that name. -/
def split_data (globalData : Option DF) (p : Predictor) :
    Predictor × Except Err (DF × DF × Col × Col) :=
  match p.df.dropCol "mmr" with
  | .error e => (p, .error e)
  | .ok X =>
    match globalData with
    | none => (p, .error (.nameError "data"))
    | some d =>
      match d.getCol "mmr" with
      | none => (p, .error (.keyError "mmr"))
      | some y => (p, .ok (train_test_split X y))

/-- `train`: fits the current model in place (the learned library state is
opaque; only the fitted flag is observable) and returns the object. -/
def train (p : Predictor) : Predictor × Except Err Predictor :=
  match p.model with
  | none => (p, .error (.valueError "NoneType has no attribute fit"))
  | some m =>
    let p' : Predictor := { p with model := some m.setFitted }
    (p', .ok p')

/-- The `param_grid` built for `random_forest`
(`n_estimators`, `max_depth`, `min_samples_split`, `min_samples_leaf`), as
the Cartesian product sklearn enumerates; every candidate keeps the base
estimator's `random_state`. -/
def rf_param_grid (base : RFParams) : List RFParams :=
  [50, 100, 200].flatMap (fun n =>
    ([none, some 10, some 20, some 30] : List (Option ℕ)).flatMap (fun d =>
      [2, 5, 10].flatMap (fun s =>
        [1, 2, 4].map (fun l =>
          { n_estimators := n, max_depth := d, min_samples_split := s,
            min_samples_leaf := l, random_state := base.random_state }))))

/-- The `param_grid` built for `gradient_boosting`
(`learning_rate`, `max_depth`, `n_estimators`, `subsample`). -/
def gb_param_grid (base : GBParams) : List GBParams :=
  ([0.01, 0.1, 0.3] : List ℚ).flatMap (fun lr =>
    [3, 5, 7].flatMap (fun d =>
      [50, 100, 200].flatMap (fun n =>
        ([0.7, 1.0] : List ℚ).map (fun sub =>
          { n_estimators := n, learning_rate := lr, max_depth := d,
            subsample := sub, random_state := base.random_state }))))

/-- The hyperparameter grid the SPEC prescribes for the ensemble-averaging
model, written directly from its words: estimator-count in 50, 100, 200;
max-depth in unbounded, 10, 20, 30; min-split in 2, 5, 10; min-leaf in
1, 2, 4 (each candidate as a tuple in that order). -/
def rf_grid_spec : List (ℕ × Option ℕ × ℕ × ℕ) :=
  [50, 100, 200].flatMap (fun n =>
    ([none, some 10, some 20, some 30] : List (Option ℕ)).flatMap (fun d =>
      [2, 5, 10].flatMap (fun s =>
        [1, 2, 4].map (fun l => (n, d, s, l)))))

/-- The hyperparameter grid the SPEC prescribes for the gradient-boosted
model, written directly from its words: learning-rate in 0.01, 0.1, 0.3;
max-depth in 3, 5, 7; estimator-count in 50, 100, 200; subsample in
0.7, 1.0 (each candidate as a tuple in that order). -/
def gb_grid_spec : List (ℚ × ℕ × ℕ × ℚ) :=
  ([0.01, 0.1, 0.3] : List ℚ).flatMap (fun lr =>
    [3, 5, 7].flatMap (fun d =>
      [50, 100, 200].flatMap (fun n =>
        ([0.7, 1.0] : List ℚ).map (fun sub => (lr, d, n, sub)))))

/-- An `RFParams` value as the tuple of the four grid-searched fields. -/
def rfTuple (q : RFParams) : ℕ × Option ℕ × ℕ × ℕ :=
  (q.n_estimators, q.max_depth, q.min_samples_split, q.min_samples_leaf)

/-- A `GBParams` value as the tuple of the four grid-searched fields. -/
def gbTuple (q : GBParams) : ℚ × ℕ × ℕ × ℚ :=
  (q.learning_rate, q.max_depth, q.n_estimators, q.subsample)

/-- The values of a real list at a list of positions. -/
def idxVals (y : List ℝ) (idxs : List ℕ) : List ℝ := idxs.filterMap y.get?

/-- `sklearn.model_selection.KFold(n_splits=k)` without shuffling on `n`
rows: the i-th pair is (test indices, train indices); test folds are
contiguous blocks, the first `n mod k` of size `n / k + 1`. -/
def kfold_splits (k n : ℕ) : List (List ℕ × List ℕ) :=
  (List.range k).map (fun i =>
    let base := n / k
    let extra := n % k
    let start := i * base + min i extra
    let size := base + (if i < extra then 1 else 0)
    (List.range' start size,
     (List.range start) ++ (List.range' (start + size) (n - (start + size)))))

/-- Root-mean-squared error of predictions against ground truth. -/
noncomputable def rmse (yTrue yPred : List ℝ) : ℝ :=
  Real.sqrt (listMean (List.zipWith (fun a b => (a - b) ^ 2) yTrue yPred))

/-- The `neg_root_mean_squared_error` cross-validation score of one candidate
under k-fold cross-validation: for every fold, train the candidate on the
train block and score `-RMSE` on the test block, then average.  `learner m
Xtr ytr Xte` abstracts the fit-then-predict of the library on a candidate `m`. -/
noncomputable def cross_val_neg_rmse
    (learner : Model → DF → List ℝ → DF → List ℝ)
    (m : Model) (X : DF) (y : List ℝ) (k : ℕ) : ℝ :=
  listMean ((kfold_splits k X.nrows).map (fun s =>
    -(rmse (idxVals y s.1) (learner m (X.rowsAt s.2) (idxVals y s.2) (X.rowsAt s.1)))))

/-- The candidate with the highest score (first one on ties, as
`numpy.argmax` over the mean test scores behaves). -/
noncomputable def best_by (score : Model → ℝ) : List Model → Option Model
  | [] => none
  | m :: ms => some (ms.foldl (fun b c => if score b < score c then c else b) m)

/-- `GridSearchCV(estimator, param_grid, cv, scoring=neg_root_mean_squared_error)
.fit(X, y).best_estimator_`: the best-scoring candidate, refit on all of
`(X, y)` (hence fitted). -/
noncomputable def grid_search_best
    (learner : Model → DF → List ℝ → DF → List ℝ)
    (grid : List Model) (X : DF) (y : List ℝ) (cv : ℕ) : Option Model :=
  (best_by (fun m => cross_val_neg_rmse learner m X y cv) grid).map Model.setFitted

/-- `optimize_hyperparameters(X, y, cv)`: builds the model-kind-specific
grid (when `model_type` is neither recognised value, the Python local
`param_grid` is never bound and the `GridSearchCV` call raises `NameError`),
runs the exhaustive search scored by negative RMSE under `cv`-fold
cross-validation, and replaces `self.model` with the best candidate. -/
noncomputable def optimize_hyperparameters
    (learner : Model → DF → List ℝ → DF → List ℝ)
    (p : Predictor) (X : DF) (y : List ℝ) (cv : ℕ) :
    Predictor × Except Err Unit :=
  match p.model with
  | none => (p, .error (.valueError "estimator is not an estimator instance"))
  | some m =>
    let gridE : Except Err (List Model) :=
      if p.model_type = "random_forest" then
        match m with
        | .rf q _ => .ok ((rf_param_grid q).map (fun r => Model.rf r false))
        | .gb _ _ => .error (.valueError "invalid parameter for estimator")
      else if p.model_type = "gradient_boosting" then
        match m with
        | .gb q _ => .ok ((gb_param_grid q).map (fun r => Model.gb r false))
        | .rf _ _ => .error (.valueError "invalid parameter for estimator")
      else .error (.nameError "param_grid")
    match gridE with
    | .error e => (p, .error e)
    | .ok grid =>
      match grid_search_best learner grid X y cv with
      | none => (p, .error (.valueError "empty grid"))
      | some best => ({ p with model := some best }, .ok ())

/-- `generate_feature_importance(X)`: the guard of the source itself raises its
`ValueError` only when `self.model is None`; it then creates the output
directory (filesystem, `io`), reads `self.model.feature_importances_`
(the library raises `NotFittedError` on an unfit model; on a fit model the
scores are the abstract `importances` oracle), pairs them with the column
names of `X`, sorts descending by importance, and renders the first 15 rows
into a bar chart saved under a path keyed by `model_type`.  On success it
yields that path and the rendered (feature, importance) bars. -/
noncomputable def generate_feature_importance
    (importances : Model → List ℝ) (io : Bool) (p : Predictor) (X : DF) :
    Predictor × Except Err (String × List (String × ℝ)) :=
  match p.model with
  | none =>
    (p, .error (.valueError
      "Model is not trained. Please train the model before generating feature importance."))
  | some m =>
    if io = false then (p, .error .ioError)
    else if m.isFitted = false then (p, .error .notFittedError)
    else
      let fi := List.zip X.colNames (importances m)
      let ranked := List.insertionSort (fun a b => b.2 ≤ a.2) fi
      (p, .ok ("dataviz/feature_importance_" ++ p.model_type ++ ".png", ranked.take 15))

/-- A small concrete dataset holding every declared column (plus one extra,
`sellingprice`, that feature selection must drop), with two rows. -/
def dfA : DF :=
  [("condition", .numCol [0, 2]), ("car_age", .numCol [0, 2]),
   ("mileage", .numCol [0, 2]),
   ("brand", .strCol ["toyota", "toyota"]),
   ("market_model", .strCol ["camry", "civic"]),
   ("body_type", .strCol ["sedan", "suv"]),
   ("transmission", .strCol ["auto", "manual"]),
   ("state", .strCol ["ca", "wa"]),
   ("interior", .strCol ["tan", "gray"]),
   ("color", .strCol ["black", "white"]),
   ("mmr", .numCol [1, 2]), ("sellingprice", .numCol [5, 6])]

/-- The default gradient-boosting parameters `__init__` installs. -/
def gbDefault : GBParams := ⟨100, 1/10, 3, 1, 42⟩

/-- The default random-forest parameters `__init__` installs. -/
def rfDefault : RFParams := ⟨100, none, 2, 1, 42⟩

/-- A freshly constructed predictor on `dfA` (gradient boosting). -/
def pA : Predictor := ⟨dfA, none, none, "gradient_boosting", some (.gb gbDefault false)⟩

/-- `dfA` without its `brand` column. -/
def dfNoBrand : DF :=
  [("condition", .numCol [0, 2]), ("car_age", .numCol [0, 2]),
   ("mileage", .numCol [0, 2]),
   ("market_model", .strCol ["camry", "civic"]),
   ("body_type", .strCol ["sedan", "suv"]),
   ("transmission", .strCol ["auto", "manual"]),
   ("state", .strCol ["ca", "wa"]),
   ("interior", .strCol ["tan", "gray"]),
   ("color", .strCol ["black", "white"]),
   ("mmr", .numCol [1, 2])]

/-- A predictor holding `dfNoBrand`. -/
def pNoBrand : Predictor :=
  ⟨dfNoBrand, none, none, "gradient_boosting", some (.gb gbDefault false)⟩

/-- `dfA` without its `mileage` column. -/
def dfNoMileage : DF :=
  [("condition", .numCol [0, 2]), ("car_age", .numCol [0, 2]),
   ("brand", .strCol ["toyota", "toyota"]),
   ("market_model", .strCol ["camry", "civic"]),
   ("body_type", .strCol ["sedan", "suv"]),
   ("transmission", .strCol ["auto", "manual"]),
   ("state", .strCol ["ca", "wa"]),
   ("interior", .strCol ["tan", "gray"]),
   ("color", .strCol ["black", "white"]),
   ("mmr", .numCol [1, 2])]

/-- A predictor holding `dfNoMileage`. -/
def pNoMileage : Predictor :=
  ⟨dfNoMileage, none, none, "gradient_boosting", some (.gb gbDefault false)⟩

/-- A five-row frame whose feature column is constant and whose target
column is constant, so the split output is independent of the permutation. -/
def dfC : DF := [("condition", .numCol [0, 0, 0, 0, 0]), ("mmr", .numCol [1, 1, 1, 1, 1])]

/-- A predictor holding `dfC`. -/
def pC : Predictor := ⟨dfC, none, none, "gradient_boosting", some (.gb gbDefault false)⟩

/-- A module-level `data` frame DIFFERENT from the frame held by `pC`:
its `mmr` column is all 7. -/
def dfG : DF := [("mmr", .numCol [7, 7, 7, 7, 7])]

/-- A tiny one-row frame. -/
def dfS : DF := [("condition", .numCol [0]), ("mmr", .numCol [1])]

/-- The predictor `MMRPredictor(dfS, model_type=random_forest)` constructs:
an UNTRAINED random forest with the default hyperparameters. -/
def pRF0 : Predictor := ⟨dfS, none, none, "random_forest", some (.rf rfDefault false)⟩

/-- An already-encoded state: every declared column numeric (categorical
columns hold integer codes) and an encoder retained from the encode step. -/
def dfB : DF :=
  [("condition", .numCol [0, 2]), ("car_age", .numCol [0, 2]),
   ("mileage", .numCol [0, 2]),
   ("brand", .numCol [0, 0]), ("market_model", .numCol [0, 1]),
   ("body_type", .numCol [0, 1]), ("transmission", .numCol [0, 1]),
   ("state", .numCol [0, 1]), ("interior", .numCol [1, 0]),
   ("color", .numCol [0, 1]), ("mmr", .numCol [1, 2])]

/-- A predictor in the post-encoding state, holding `dfB`. -/
def pB : Predictor :=
  ⟨dfB, some ["black", "white"], none, "gradient_boosting", some (.gb gbDefault false)⟩

theorem DF.getCol_setCol_self (df : DF) (c : String) (v : Col) :
    (df.setCol c v).getCol c = some v := by
  induction df with
  | nil => simp [DF.setCol, DF.getCol]
  | cons hd tl ih =>
    obtain ⟨n, w⟩ := hd
    by_cases h : n = c <;> simp [DF.setCol, DF.getCol, h, ih]

theorem DF.getCol_setCol_ne (df : DF) (c c' : String) (v : Col) (h : c' ≠ c) :
    (df.setCol c v).getCol c' = df.getCol c' := by
  induction df with
  | nil => simp [DF.setCol, DF.getCol, Ne.symm h]
  | cons hd tl ih =>
    obtain ⟨n, w⟩ := hd
    by_cases hn : n = c
    · subst hn
      simp [DF.setCol, DF.getCol, Ne.symm h, ih]
    · by_cases hn' : n = c'
      · subst hn'
        simp [DF.setCol, DF.getCol, hn, Ne.symm h]
      · simp [DF.setCol, DF.getCol, hn, hn', ih]

theorem DF.mem_colNames_setCol (df : DF) (c : String) (v : Col) :
    c ∈ (df.setCol c v).colNames := by
  induction df with
  | nil => simp [DF.setCol, DF.colNames]
  | cons hd tl ih =>
    obtain ⟨n, w⟩ := hd
    by_cases h : n = c
    · simp [DF.setCol, h, DF.colNames]
    · simp only [DF.setCol, if_neg h, DF.colNames, List.map_cons, List.mem_cons]
      exact Or.inr ih

theorem DF.selectCols_eq (df : DF) (cols : List String)
    (h : ∀ c ∈ cols, (df.getCol c).isSome) :
    df.selectCols cols =
      .ok (cols.map (fun c => (c, (df.getCol c).getD (.numCol [])))) := by
  induction cols with
  | nil => simp [DF.selectCols]
  | cons c cs ih =>
    have hc := h c (by simp)
    obtain ⟨v, hv⟩ := Option.isSome_iff_exists.mp hc
    have ih' := ih (fun c' hc' => h c' (by simp [hc']))
    simp [DF.selectCols, hv, ih']

theorem DF.selectCols_err (df : DF) (cols : List String) (c : String)
    (hc : c ∈ cols) (h : df.getCol c = none) :
    ∃ c', c' ∈ cols ∧ df.getCol c' = none ∧
      df.selectCols cols = .error (.keyError c') := by
  induction cols with
  | nil => simp at hc
  | cons d ds ih =>
    by_cases hd : df.getCol d = none
    · exact ⟨d, by simp, hd, by simp [DF.selectCols, hd]⟩
    · obtain ⟨v, hv⟩ := Option.ne_none_iff_exists'.mp hd
      have hcds : c ∈ ds := by
        rcases List.mem_cons.mp hc with h1 | h1
        · exact absurd (h1 ▸ hv) (by simp [h])
        · exact h1
      obtain ⟨c', hc1, hc2, hc3⟩ := ih hcds
      refine ⟨c', by simp [hc1], hc2, ?_⟩
      simp [DF.selectCols, hv, hc3]

theorem DF.getCol_map_pairs (cols : List String) (f : String → Col) (c : String)
    (hc : c ∈ cols) :
    DF.getCol (cols.map (fun c => (c, f c))) c = some (f c) := by
  induction cols with
  | nil => simp at hc
  | cons d ds ih =>
    by_cases h : d = c
    · subst h; simp [DF.getCol]
    · rcases List.mem_cons.mp hc with h1 | h1
      · exact absurd h1.symm h
      · simp [DF.getCol, h, ih h1]

theorem DF.getCol_map_pairs_notMem (cols : List String) (f : String → Col)
    (c : String) (hc : c ∉ cols) :
    DF.getCol (cols.map (fun c => (c, f c))) c = none := by
  induction cols with
  | nil => simp [DF.getCol]
  | cons d ds ih =>
    have hdc : d ≠ c := fun h => hc (by simp [h])
    have hcds : c ∉ ds := fun h => hc (by simp [h])
    simp [DF.getCol, hdc, ih hcds]

theorem DF.colNum_congr (df1 df2 : DF) (c : String)
    (h : df1.getCol c = df2.getCol c) : df1.colNum c = df2.colNum c := by
  unfold DF.colNum
  rw [h]

theorem encodeLoop_spec (cols : List String) : ∀ (p : Predictor),
    cols.Nodup →
    (∀ c ∈ cols, ∃ ss, p.df.getCol c = some (.strCol ss)) →
    (encodeLoop p cols).2 = .ok () ∧
    (∀ c, c ∉ cols → (encodeLoop p cols).1.df.getCol c = p.df.getCol c) ∧
    (∀ c ss, c ∈ cols → p.df.getCol c = some (.strCol ss) →
       (encodeLoop p cols).1.df.getCol c = some (.numCol (labelCodes ss))) ∧
    (∀ cl ss, cols.getLast? = some cl → p.df.getCol cl = some (.strCol ss) →
       (encodeLoop p cols).1.encoder = some (labelClasses ss)) ∧
    (cols = [] → (encodeLoop p cols).1 = p) := by
  induction cols with
  | nil =>
    intro p _ _
    exact ⟨rfl, fun c _ => rfl, by simp, by simp [List.getLast?], fun _ => rfl⟩
  | cons c cs ih =>
    intro p hnd hc
    obtain ⟨ss, hss⟩ := hc c (by simp)
    have hcn : c ∉ cs := (List.nodup_cons.mp hnd).1
    have hnd' : cs.Nodup := (List.nodup_cons.mp hnd).2
    set p' : Predictor :=
      { p with df := p.df.setCol c (.numCol (labelCodes ss)),
               encoder := some (labelClasses ss) } with hp'
    have hmem : c ∈ p'.df.colNames := DF.mem_colNames_setCol _ _ _
    have hstep : encodeLoop p (c :: cs) = encodeLoop p' cs := by
      simp only [encodeLoop, hss]
      rw [if_pos hmem]
    have hget : ∀ c' ∈ cs, p'.df.getCol c' = p.df.getCol c' := by
      intro c' hc'
      have : c' ≠ c := fun h => hcn (h ▸ hc')
      exact DF.getCol_setCol_ne _ _ _ _ this
    have hc' : ∀ c' ∈ cs, ∃ ss', p'.df.getCol c' = some (.strCol ss') := by
      intro c' hcc
      obtain ⟨ss', hss'⟩ := hc c' (by simp [hcc])
      exact ⟨ss', (hget c' hcc).trans hss'⟩
    obtain ⟨ihOk, ihKeep, ihCode, ihEnc, ihNil⟩ := ih p' hnd' hc'
    rw [hstep]
    refine ⟨ihOk, ?_, ?_, ?_, by simp⟩
    · intro c' hcc
      have h1 : c' ∉ cs := fun h => hcc (by simp [h])
      have h2 : c' ≠ c := fun h => hcc (by simp [h])
      rw [ihKeep c' h1]
      exact DF.getCol_setCol_ne _ _ _ _ h2
    · intro c'' ss'' hmem'' hss''
      rcases List.mem_cons.mp hmem'' with h1 | h1
      · subst h1
        have hinj : ss'' = ss := by
          have := hss''.symm.trans hss
          injection this with h
          injection h
        subst hinj
        rw [ihKeep c'' hcn]
        exact DF.getCol_setCol_self _ _ _
      · exact ihCode c'' ss'' h1 ((hget c'' h1).trans hss'')
    · intro cl ss'' hlast hss''
      cases cs with
      | nil =>
        have hcl : cl = c := by
          simp [List.getLast?] at hlast
          exact hlast.symm
        subst hcl
        have hinj : ss'' = ss := by
          have := hss''.symm.trans hss
          injection this with h
          injection h
        subst hinj
        have h0 := ihNil rfl
        rw [h0]
      | cons d ds =>
        rw [List.getLast?_cons_cons] at hlast
        have hclmem : cl ∈ d :: ds := List.mem_of_mem_getLast? hlast
        exact ihEnc cl ss'' hlast ((hget cl hclmem).trans hss'')

theorem encode_spec (p : Predictor)
    (hc : ∀ c ∈ categorical_cols, ∃ ss, p.df.getCol c = some (.strCol ss)) :
    (encode_categorical_features p).2 = .ok () ∧
    (∀ c, c ∉ categorical_cols →
       (encode_categorical_features p).1.df.getCol c = p.df.getCol c) ∧
    (∀ c ss, c ∈ categorical_cols → p.df.getCol c = some (.strCol ss) →
       (encode_categorical_features p).1.df.getCol c = some (.numCol (labelCodes ss))) ∧
    (∀ ss, p.df.getCol "color" = some (.strCol ss) →
       (encode_categorical_features p).1.encoder = some (labelClasses ss)) := by
  have hnd : categorical_cols.Nodup := by decide
  obtain ⟨h1, h2, h3, h4, _⟩ :=
    encodeLoop_spec categorical_cols { p with encoder := some [] } hnd hc
  exact ⟨h1, h2, h3, fun ss hss => h4 "color" ss rfl hss⟩

theorem DF.getNumMatrix_eq (df : DF) (cols : List String)
    (h : ∀ c ∈ cols, ∃ xs, df.getCol c = some (.numCol xs)) :
    df.getNumMatrix cols = .ok (cols.map df.colNum) := by
  induction cols with
  | nil => simp [DF.getNumMatrix]
  | cons c cs ih =>
    obtain ⟨xs, hxs⟩ := h c (by simp)
    have ih' := ih (fun c' hc' => h c' (by simp [hc']))
    simp [DF.getNumMatrix, hxs, ih', DF.colNum]

theorem DF.getCol_setColsNum_notMem (cols : List String) :
    ∀ (df : DF) (m : List (List ℝ)) (c : String), c ∉ cols →
    (df.setColsNum cols m).getCol c = df.getCol c := by
  induction cols with
  | nil => intro df m c _; simp [DF.setColsNum]
  | cons d ds ih =>
    intro df m c hc
    cases m with
    | nil => simp [DF.setColsNum]
    | cons xs tl =>
      have h2 : c ≠ d := fun h => hc (by simp [h])
      have h1 : c ∉ ds := fun h => hc (by simp [h])
      show ((df.setCol d (.numCol xs)).setColsNum ds tl).getCol c = df.getCol c
      rw [ih _ tl c h1]
      exact DF.getCol_setCol_ne _ _ _ _ h2

theorem DF.getCol_setColsNum_map (cols : List String) :
    ∀ (df : DF) (f : String → List ℝ) (c : String), cols.Nodup → c ∈ cols →
    (df.setColsNum cols (cols.map f)).getCol c = some (.numCol (f c)) := by
  induction cols with
  | nil => intro df f c _ hc; simp at hc
  | cons d ds ih =>
    intro df f c hnd hc
    have hdn : d ∉ ds := (List.nodup_cons.mp hnd).1
    show ((df.setCol d (.numCol (f d))).setColsNum ds (ds.map f)).getCol c =
      some (.numCol (f c))
    by_cases h : c = d
    · subst h
      rw [DF.getCol_setColsNum_notMem ds _ _ c hdn]
      exact DF.getCol_setCol_self _ _ _
    · have hcds : c ∈ ds := by
        rcases List.mem_cons.mp hc with h1 | h1
        · exact absurd h1 h
        · exact h1
      exact ih _ f c (List.nodup_cons.mp hnd).2 hcds

theorem normalize_features_eq (p : Predictor) (e : List String)
    (he : p.encoder = some e)
    (hnum : ∀ c ∈ numerical_cols, ∃ xs, p.df.getCol c = some (.numCol xs) ∧ xs ≠ [])
    (hcat : ∀ c ∈ categorical_cols, ∃ xs, p.df.getCol c = some (.numCol xs) ∧ xs ≠ []) :
    normalize_features p =
      ({ p with
         scaler := some (scalerParams (categorical_cols.map p.df.colNum)),
         df := (p.df.setColsNum numerical_cols
                  ((numerical_cols.map p.df.colNum).map standardizeCol)).setColsNum
                categorical_cols
                ((categorical_cols.map p.df.colNum).map standardizeCol) },
       .ok ()) := by
  have hdisj : ∀ c ∈ categorical_cols, c ∉ numerical_cols := by decide
  have hcolNum : ∀ c ∈ numerical_cols, p.df.colNum c ≠ [] := by
    intro c hc
    obtain ⟨xs, hxs, hne⟩ := hnum c hc
    simp [DF.colNum, hxs, hne]
  have hcolNumCat : ∀ c ∈ categorical_cols, p.df.colNum c ≠ [] := by
    intro c hc
    obtain ⟨xs, hxs, hne⟩ := hcat c hc
    simp [DF.colNum, hxs, hne]
  have hM1 : p.df.getNumMatrix numerical_cols = .ok (numerical_cols.map p.df.colNum) :=
    DF.getNumMatrix_eq _ _ (fun c hc => ⟨(hnum c hc).choose, (hnum c hc).choose_spec.1⟩)
  have hne1 : (numerical_cols.map p.df.colNum).any List.isEmpty = false := by
    rw [List.any_eq_false]
    intro x hx
    obtain ⟨c, hc, rfl⟩ := List.mem_map.mp hx
    simp [List.isEmpty_eq_true, hcolNum c hc]
  have hgetKeep : ∀ c ∈ categorical_cols,
      ((p.df.setColsNum numerical_cols
        ((numerical_cols.map p.df.colNum).map standardizeCol)).getCol c) = p.df.getCol c := by
    intro c hc
    exact DF.getCol_setColsNum_notMem _ _ _ _ (hdisj c hc)
  have hM2 : (p.df.setColsNum numerical_cols
        ((numerical_cols.map p.df.colNum).map standardizeCol)).getNumMatrix categorical_cols
      = .ok (categorical_cols.map p.df.colNum) := by
    have h := DF.getNumMatrix_eq
      (p.df.setColsNum numerical_cols ((numerical_cols.map p.df.colNum).map standardizeCol))
      categorical_cols (fun c hc => by
        obtain ⟨xs, hxs, _⟩ := hcat c hc
        exact ⟨xs, (hgetKeep c hc).trans hxs⟩)
    rw [h]
    congr 1
    apply List.map_congr_left
    intro c hc
    exact DF.colNum_congr _ _ _ (hgetKeep c hc)
  have hne2 : (categorical_cols.map p.df.colNum).any List.isEmpty = false := by
    rw [List.any_eq_false]
    intro x hx
    obtain ⟨c, hc, rfl⟩ := List.mem_map.mp hx
    simp [List.isEmpty_eq_true, hcolNumCat c hc]
  simp only [normalize_features, he, hM1, hne1, Bool.false_eq_true, if_false]
  rw [hM2]
  simp only [hne2, Bool.false_eq_true, if_false]

theorem listSum_map_sub (xs : List ℝ) (c : ℝ) :
    (xs.map (fun x => x - c)).sum = xs.sum - xs.length * c := by
  induction xs with
  | nil => simp
  | cons a tl ih =>
    simp only [List.map_cons, List.sum_cons, ih, List.length_cons]
    push_cast
    ring

theorem listSum_map_div (xs : List ℝ) (d : ℝ) :
    (xs.map (fun x => x / d)).sum = xs.sum / d := by
  induction xs with
  | nil => simp
  | cons a tl ih =>
    simp only [List.map_cons, List.sum_cons, ih]
    ring

theorem standardizeCol_length (xs : List ℝ) :
    (standardizeCol xs).length = xs.length := by
  simp [standardizeCol]

theorem listMean_mul_length (xs : List ℝ) (h : xs ≠ []) :
    (xs.length : ℝ) * listMean xs = xs.sum := by
  have hn : (xs.length : ℝ) ≠ 0 := by
    simp [List.length_eq_zero, h]
  rw [listMean]
  field_simp

theorem listMean_standardize (xs : List ℝ) (h : xs ≠ []) :
    listMean (standardizeCol xs) = 0 := by
  have hn : (xs.length : ℝ) ≠ 0 := by
    simp [List.length_eq_zero, h]
  rw [listMean, standardizeCol]
  have h1 : (xs.map (fun x =>
      (x - listMean xs) / (if listVar xs = 0 then 1 else Real.sqrt (listVar xs)))).sum
      = ((xs.map (fun x => x - listMean xs)).map (fun y =>
          y / (if listVar xs = 0 then 1 else Real.sqrt (listVar xs)))).sum := by
    rw [List.map_map]
    rfl
  rw [h1, listSum_map_div, listSum_map_sub, listMean_mul_length xs h]
  simp

theorem listVar_nonneg (xs : List ℝ) : 0 ≤ listVar xs := by
  apply div_nonneg
  · apply List.sum_nonneg
    intro x hx
    obtain ⟨a, _, rfl⟩ := List.mem_map.mp hx
    positivity
  · positivity

theorem listVar_standardize (xs : List ℝ) (h : xs ≠ []) (hv : listVar xs ≠ 0) :
    listVar (standardizeCol xs) = 1 := by
  have hn : (xs.length : ℝ) ≠ 0 := by
    simp [List.length_eq_zero, h]
  have hmean := listMean_standardize xs h
  have hs2 : (Real.sqrt (listVar xs)) ^ 2 = listVar xs := Real.sq_sqrt (listVar_nonneg xs)
  rw [listVar, hmean, standardizeCol_length]
  have h1 : ((standardizeCol xs).map (fun x => (x - 0) ^ 2)).sum
      = ((xs.map (fun x => (x - listMean xs) ^ 2)).map
          (fun y => y / listVar xs)).sum := by
    rw [standardizeCol, if_neg hv, List.map_map, List.map_map]
    apply congrArg
    apply List.map_congr_left
    intro a _
    simp only [Function.comp]
    rw [sub_zero, div_pow, hs2]
  have h2 : (xs.map (fun x => (x - listMean xs) ^ 2)).sum
      = listVar xs * (xs.length : ℝ) := by
    rw [listVar]
    field_simp
  rw [h1, listSum_map_div, h2]
  field_simp

theorem foldl_best_spec (score : Model → ℝ) (l : List Model) : ∀ (a : Model),
    (l.foldl (fun b c => if score b < score c then c else b) a) ∈ a :: l ∧
    ∀ c ∈ a :: l,
      score c ≤ score (l.foldl (fun b c => if score b < score c then c else b) a) := by
  induction l with
  | nil =>
    intro a
    refine ⟨by simp [List.foldl], ?_⟩
    intro c hc
    simp only [List.foldl]
    simp at hc
    subst hc
    exact le_refl _
  | cons d tl ih =>
    intro a
    have hstep : (d :: tl).foldl (fun b c => if score b < score c then c else b) a
        = tl.foldl (fun b c => if score b < score c then c else b)
            (if score a < score d then d else a) := rfl
    obtain ⟨hmem, hle⟩ := ih (if score a < score d then d else a)
    have hsub : (if score a < score d then d else a) ∈ a :: d :: tl := by
      by_cases hc : score a < score d <;> simp [hc]
    constructor
    · rw [hstep]
      rcases List.mem_cons.mp hmem with h1 | h1
      · rw [h1]; exact hsub
      · simp [h1]
    · intro c hc
      rw [hstep]
      have hstepa : score a ≤ score (if score a < score d then d else a) := by
        by_cases hb : score a < score d
        · rw [if_pos hb]; exact le_of_lt hb
        · rw [if_neg hb]
      have hstepd : score d ≤ score (if score a < score d then d else a) := by
        by_cases hb : score a < score d
        · rw [if_pos hb]
        · rw [if_neg hb]; exact le_of_not_lt hb
      have hhead : score (if score a < score d then d else a)
          ≤ score (tl.foldl (fun b c => if score b < score c then c else b)
              (if score a < score d then d else a)) :=
        hle _ (by simp)
      rcases List.mem_cons.mp hc with h1 | h1
      · rw [h1]; exact le_trans hstepa hhead
      · rcases List.mem_cons.mp h1 with h2 | h2
        · rw [h2]; exact le_trans hstepd hhead
        · exact hle c (by simp [h2])

theorem best_by_spec (score : Model → ℝ) (a : Model) (l : List Model) :
    ∃ best, best_by score (a :: l) = some best ∧ best ∈ a :: l ∧
      ∀ c ∈ a :: l, score c ≤ score best := by
  obtain ⟨hmem, hle⟩ := foldl_best_spec score l a
  exact ⟨_, rfl, hmem, hle⟩

/-- C1: `split_data` does drop the target column from the orchestrator held
frame and split deterministically 80/20, but the returned target vector is
read from the MODULE-LEVEL name `data`, not from `self.df`: on an
orchestrator holding `dfC` (whose `mmr` column is all 1), the call raises
`NameError` when no module-level `data` exists, and when a module-level
frame `dfG` (whose `mmr` column is all 7) exists, the returned target parts
are drawn from `dfG`, not from the held frame. -/
theorem C1_split_data_target_from_global :
    (split_data none pC).2 = Except.error (Err.nameError "data") ∧
    (split_data (some dfG) pC).2 =
      Except.ok ([("condition", Col.numCol [0, 0, 0, 0])],
                 [("condition", Col.numCol [0])],
                 Col.numCol [7, 7, 7, 7], Col.numCol [7]) ∧
    pC.df.getCol "mmr" = some (Col.numCol [1, 1, 1, 1, 1]) :=
  ⟨rfl, rfl, rfl⟩

/-- C3: when a declared categorical field (`brand`) is absent, the column
access `self.df[col]` inside `encode_categorical_features` raises the pandas
`KeyError` first; the membership check of the orchestrator itself on the following
line (which would raise its `ValueError`) sits after the assignment and
never fires. -/
theorem C3_missing_column_raises_library_keyerror :
    (encode_categorical_features pNoBrand).2 = Except.error (Err.keyError "brand") :=
  rfl

/-- C10: `__init__` always installs a model object, so after construction
`self.model` is never `None` and the guard of `generate_feature_importance`
(`if self.model is None`) cannot fire; calling it on the untrained
random-forest predictor fails inside the library
`feature_importances_` access with `NotFittedError`, not with the
not-trained `ValueError` of the orchestrator itself. -/
theorem C10_untrained_guard_never_fires :
    MMRPredictor.init dfS "random_forest" = Except.ok pRF0 ∧
    pRF0.model = some (Model.rf rfDefault false) ∧
    (generate_feature_importance (fun _ => []) true pRF0 dfS).2 =
      Except.error Err.notFittedError :=
  ⟨rfl, rfl, rfl⟩

/-- C4 counterexample: after `encode_categorical_features` on `pA`, the
retained encoder holds only the classes of the LAST declared categorical
field (`color`): the `brand` value `toyota` was written into the frame as a
code, yet the retained encoder has no mapping for it
(`LabelEncoder.transform` would raise on it). -/
theorem C4_counterexample_encoder_keeps_last_fit_only :
    (encode_categorical_features pA).2 = Except.ok () ∧
    (encode_categorical_features pA).1.encoder = some ["black", "white"] ∧
    pA.df.getCol "brand" = some (Col.strCol ["toyota", "toyota"]) ∧
    (encode_categorical_features pA).1.df.getCol "brand" =
      some (Col.numCol (labelCodes ["toyota", "toyota"])) ∧
    labelTransform ["black", "white"] "toyota" = none :=
  ⟨rfl, rfl, rfl, rfl, rfl⟩

/-- C6 counterexample: on the fully populated frame `dfA`, when the heatmap
write fails, `preprocess_data` does NOT complete: the exception propagates
and no dataset is returned. -/
theorem C6_counterexample_plot_failure_aborts :
    (preprocess_data false pA).2 = Except.error Err.ioError :=
  rfl

/-- C9 counterexample: with the declared column `mileage` absent,
`select_features` raises the pandas `KeyError` instead of proceeding. -/
theorem C9_counterexample_missing_column_raises :
    (select_features pNoMileage).2 = Except.error (Err.keyError "mileage") :=
  rfl

/-- C7: construction with `random_forest` or `gradient_boosting` succeeds
and installs an untrained regressor of that kind with the fixed default
hyperparameters and `random_state=42`; any other selector raises
`ValueError`. -/
theorem C7_init_model_kinds (d : DF) (mt : String) :
    (mt = "random_forest" →
      MMRPredictor.init d mt =
        Except.ok ⟨d, none, none, mt, some (.rf ⟨100, none, 2, 1, 42⟩ false)⟩) ∧
    (mt = "gradient_boosting" →
      MMRPredictor.init d mt =
        Except.ok ⟨d, none, none, mt, some (.gb ⟨100, 1/10, 3, 1, 42⟩ false)⟩) ∧
    (mt ≠ "random_forest" → mt ≠ "gradient_boosting" →
      MMRPredictor.init d mt =
        Except.error (.valueError ("Unknown model type: " ++ mt ++
          ". Choose random_forest or gradient_boosting."))) := by
  refine ⟨?_, ?_, ?_⟩
  · intro h; subst h; rfl
  · intro h; subst h; rfl
  · intro h1 h2
    simp [MMRPredictor.init, h1, h2]

/-- C7 witness: the three construction outcomes at concrete selectors. -/
theorem C7_init_model_kinds_witness :
    MMRPredictor.init dfS "random_forest" =
      Except.ok ⟨dfS, none, none, "random_forest", some (.rf ⟨100, none, 2, 1, 42⟩ false)⟩ ∧
    MMRPredictor.init dfS "gradient_boosting" =
      Except.ok ⟨dfS, none, none, "gradient_boosting", some (.gb ⟨100, 1/10, 3, 1, 42⟩ false)⟩ ∧
    MMRPredictor.init dfS "svm" =
      Except.error (.valueError ("Unknown model type: " ++ "svm" ++
        ". Choose random_forest or gradient_boosting.")) :=
  ⟨(C7_init_model_kinds dfS "random_forest").1 rfl,
   (C7_init_model_kinds dfS "gradient_boosting").2.1 rfl,
   (C7_init_model_kinds dfS "svm").2.2 (by decide) (by decide)⟩

/-- C2: on any freshly constructed predictor the encoder is unset, so
`normalize_features` before any encoding raises the sequencing `ValueError`;
and `encode_categorical_features` followed by `normalize_features` succeeds
on any frame holding all declared columns with at least one row (numeric
columns numeric, categorical columns string-valued). -/
theorem C2_sequencing (d0 : DF) :
    (∀ (mt : String) (p : Predictor),
       MMRPredictor.init d0 mt = Except.ok p →
       (normalize_features p).2 = Except.error (Err.valueError seqMsg)) ∧
    (∀ p : Predictor,
       (∀ c ∈ numerical_cols, ∃ xs, p.df.getCol c = some (Col.numCol xs) ∧ xs ≠ []) →
       (∀ c ∈ categorical_cols, ∃ ss, p.df.getCol c = some (Col.strCol ss) ∧ ss ≠ []) →
       (encode_categorical_features p).2 = Except.ok () ∧
       (normalize_features (encode_categorical_features p).1).2 = Except.ok ()) := by
  constructor
  · intro mt p h
    unfold MMRPredictor.init at h
    split_ifs at h with h1 h2
    · injection h with h
      subst h
      rfl
    · injection h with h
      subst h
      rfl
  · intro p hnum hcat
    have hdisj2 : ∀ c ∈ numerical_cols, c ∉ categorical_cols := by decide
    obtain ⟨hok, hkeep, hcode, henc⟩ :=
      encode_spec p (fun c hc => ⟨(hcat c hc).choose, (hcat c hc).choose_spec.1⟩)
    refine ⟨hok, ?_⟩
    obtain ⟨ssc, hssc, hnec⟩ := hcat "color" (by decide)
    have he : (encode_categorical_features p).1.encoder = some (labelClasses ssc) :=
      henc ssc hssc
    have hnum' : ∀ c ∈ numerical_cols,
        ∃ xs, (encode_categorical_features p).1.df.getCol c = some (Col.numCol xs) ∧ xs ≠ [] := by
      intro c hc
      obtain ⟨xs, hxs, hne⟩ := hnum c hc
      exact ⟨xs, (hkeep c (hdisj2 c hc)).trans hxs, hne⟩
    have hcat' : ∀ c ∈ categorical_cols,
        ∃ xs, (encode_categorical_features p).1.df.getCol c = some (Col.numCol xs) ∧ xs ≠ [] := by
      intro c hc
      obtain ⟨ss, hss, hne⟩ := hcat c hc
      refine ⟨labelCodes ss, hcode c ss hc hss, ?_⟩
      simp [labelCodes, hne]
    rw [normalize_features_eq (encode_categorical_features p).1 (labelClasses ssc) he hnum' hcat']

/-- C2 witness: the sequencing failure on a freshly constructed predictor
and the successful encode-then-normalize run on the fully populated `pA`. -/
theorem C2_sequencing_witness :
    (normalize_features pRF0).2 = Except.error (Err.valueError seqMsg) ∧
    (encode_categorical_features pA).2 = Except.ok () ∧
    (normalize_features (encode_categorical_features pA).1).2 = Except.ok () := by
  have h1 := (C2_sequencing dfS).1 "random_forest" pRF0 rfl
  have h2 := (C2_sequencing dfS).2 pA ?_ ?_
  · exact ⟨h1, h2.1, h2.2⟩
  · intro c hc
    simp only [numerical_cols, List.mem_cons, List.not_mem_nil, or_false] at hc
    rcases hc with rfl | rfl | rfl
    · exact ⟨[0, 2], rfl, by simp⟩
    · exact ⟨[0, 2], rfl, by simp⟩
    · exact ⟨[0, 2], rfl, by simp⟩
  · intro c hc
    simp only [categorical_cols, List.mem_cons, List.not_mem_nil, or_false] at hc
    rcases hc with rfl | rfl | rfl | rfl | rfl | rfl | rfl
    · exact ⟨["toyota", "toyota"], rfl, by simp⟩
    · exact ⟨["camry", "civic"], rfl, by simp⟩
    · exact ⟨["sedan", "suv"], rfl, by simp⟩
    · exact ⟨["auto", "manual"], rfl, by simp⟩
    · exact ⟨["ca", "wa"], rfl, by simp⟩
    · exact ⟨["tan", "gray"], rfl, by simp⟩
    · exact ⟨["black", "white"], rfl, by simp⟩

/-- C4 (amended): `encode_categorical_features` writes, for every declared
categorical field, codes obtained from a label encoder FRESHLY refit on that
field (sorted distinct values, replaced by indices), but the single encoder
object retained on the orchestrator afterwards holds only the classes of the
last declared field (`color`); mappings for the earlier fields are not
retained. -/
theorem C4_amended_encoder_retains_last_fit (p : Predictor)
    (hc : ∀ c ∈ categorical_cols, ∃ ss, p.df.getCol c = some (Col.strCol ss)) :
    (encode_categorical_features p).2 = Except.ok () ∧
    (∀ c ss, c ∈ categorical_cols → p.df.getCol c = some (Col.strCol ss) →
       (encode_categorical_features p).1.df.getCol c =
         some (Col.numCol (labelCodes ss))) ∧
    (∀ ss, p.df.getCol "color" = some (Col.strCol ss) →
       (encode_categorical_features p).1.encoder = some (labelClasses ss)) := by
  obtain ⟨h1, _, h3, h4⟩ := encode_spec p hc
  exact ⟨h1, h3, h4⟩

/-- C4 witness: the amended behaviour evaluated on `pA`. -/
theorem C4_amended_encoder_retains_last_fit_witness :
    (encode_categorical_features pA).2 = Except.ok () ∧
    (encode_categorical_features pA).1.df.getCol "market_model" =
      some (Col.numCol (labelCodes ["camry", "civic"])) ∧
    (encode_categorical_features pA).1.encoder =
      some (labelClasses ["black", "white"]) := by
  have h := C4_amended_encoder_retains_last_fit pA ?_
  · exact ⟨h.1, h.2.1 "market_model" ["camry", "civic"] (by decide) rfl,
      h.2.2 ["black", "white"] rfl⟩
  · intro c hc
    simp only [categorical_cols, List.mem_cons, List.not_mem_nil, or_false] at hc
    rcases hc with rfl | rfl | rfl | rfl | rfl | rfl | rfl
    · exact ⟨["toyota", "toyota"], rfl⟩
    · exact ⟨["camry", "civic"], rfl⟩
    · exact ⟨["sedan", "suv"], rfl⟩
    · exact ⟨["auto", "manual"], rfl⟩
    · exact ⟨["ca", "wa"], rfl⟩
    · exact ⟨["tan", "gray"], rfl⟩
    · exact ⟨["black", "white"], rfl⟩

/-- C6 (amended): the correlation plot is the LAST step of
`preprocess_data`, after all dataset mutations; when the plot write
succeeds the fully mutated dataset is returned unchanged by the plot step,
and when the write fails `preprocess_data` propagates the failure (the
state still holds the fully mutated dataset, but nothing is returned). -/
theorem C6_amended_plot_is_last_and_failure_propagates (p q : Predictor)
    (h : preprocess_stages p = (q, Except.ok ())) :
    preprocess_data true p = (q, Except.ok q.df) ∧
    preprocess_data false p = (q, Except.error Err.ioError) := by
  constructor <;> simp [preprocess_data, h, generate_feature_correlation_matrix]

/-- C6 witness: the amended behaviour evaluated on `pA`. -/
theorem C6_amended_plot_is_last_and_failure_propagates_witness :
    preprocess_data false pA = ((preprocess_stages pA).1, Except.error Err.ioError) := by
  have h2 : (preprocess_stages pA).2 = Except.ok () := rfl
  have h : preprocess_stages pA = ((preprocess_stages pA).1, Except.ok ()) := by
    rw [← h2]
  exact (C6_amended_plot_is_last_and_failure_propagates pA _ h).2

/-- C9 (amended): when every declared column is present, `select_features`
restricts the frame in place to exactly the declared numeric, categorical,
and target columns in that order (dropping all others, values unchanged);
when some declared column is missing it raises a pandas `KeyError` instead
of proceeding. -/
theorem C9_amended_select_restricts_or_raises (p : Predictor) :
    ((∀ c ∈ numerical_cols ++ categorical_cols ++ [mmr_col], (p.df.getCol c).isSome) →
       (select_features p).2 = Except.ok () ∧
       (select_features p).1.df.colNames = numerical_cols ++ categorical_cols ++ [mmr_col] ∧
       (∀ c ∈ numerical_cols ++ categorical_cols ++ [mmr_col],
          (select_features p).1.df.getCol c = p.df.getCol c)) ∧
    (∀ c ∈ numerical_cols ++ categorical_cols ++ [mmr_col], p.df.getCol c = none →
       ∃ c', (select_features p).2 = Except.error (Err.keyError c')) := by
  constructor
  · intro hall
    have heq := DF.selectCols_eq p.df (numerical_cols ++ categorical_cols ++ [mmr_col]) hall
    have hsel : select_features p = ({ p with df := (numerical_cols ++ categorical_cols ++ [mmr_col]).map (fun c => (c, (p.df.getCol c).getD (Col.numCol []))) }, Except.ok ()) := by
      unfold select_features
      rw [heq]
    refine ⟨by rw [hsel], ?_, ?_⟩
    · rw [hsel]
      simp [DF.colNames, List.map_map, Function.comp_def]
    · intro c hc
      rw [hsel]
      have hg := DF.getCol_map_pairs (numerical_cols ++ categorical_cols ++ [mmr_col])
        (fun c => (p.df.getCol c).getD (Col.numCol [])) c hc
      obtain ⟨v, hv⟩ := Option.isSome_iff_exists.mp (hall c hc)
      simp only [hv]
      simpa [hv] using hg
  · intro c hc hnone
    obtain ⟨c', _, _, herr⟩ := DF.selectCols_err p.df _ c hc hnone
    refine ⟨c', ?_⟩
    unfold select_features
    rw [herr]

/-- C9 witness: both amended branches evaluated on concrete frames. -/
theorem C9_amended_select_restricts_or_raises_witness :
    (select_features pA).2 = Except.ok () ∧
    (select_features pA).1.df.colNames = numerical_cols ++ categorical_cols ++ [mmr_col] ∧
    (∃ c', (select_features pNoMileage).2 = Except.error (Err.keyError c')) := by
  have h1 := (C9_amended_select_restricts_or_raises pA).1 (by decide)
  have h2 := (C9_amended_select_restricts_or_raises pNoMileage).2 "mileage" (by decide) rfl
  exact ⟨h1.1, h1.2.1, h2⟩

/-- C5: `normalize_features` standardizes every numeric column (the written
values have zero mean, and unit variance whenever the column was not
degenerate), ALSO re-standardizes the integer-coded categorical columns with
the same scaler object refit on them, and therefore retains on the
orchestrator the scaler parameters fit on the categorical columns. -/
theorem C5_normalize_standardizes_and_refits_scaler (p : Predictor)
    (e : List String) (he : p.encoder = some e)
    (hnum : ∀ c ∈ numerical_cols, ∃ xs, p.df.getCol c = some (Col.numCol xs) ∧ xs ≠ [])
    (hcat : ∀ c ∈ categorical_cols, ∃ xs, p.df.getCol c = some (Col.numCol xs) ∧ xs ≠ []) :
    (normalize_features p).2 = Except.ok () ∧
    (∀ c ∈ numerical_cols,
       (normalize_features p).1.df.getCol c =
         some (Col.numCol (standardizeCol (p.df.colNum c))) ∧
       listMean (standardizeCol (p.df.colNum c)) = 0 ∧
       (listVar (p.df.colNum c) ≠ 0 → listVar (standardizeCol (p.df.colNum c)) = 1)) ∧
    (∀ c ∈ categorical_cols,
       (normalize_features p).1.df.getCol c =
         some (Col.numCol (standardizeCol (p.df.colNum c)))) ∧
    (normalize_features p).1.scaler =
      some (scalerParams (categorical_cols.map p.df.colNum)) := by
  have heq := normalize_features_eq p e he hnum hcat
  have hndN : numerical_cols.Nodup := by decide
  have hndC : categorical_cols.Nodup := by decide
  have hdisjNC : ∀ c ∈ numerical_cols, c ∉ categorical_cols := by decide
  have hmapN : (numerical_cols.map p.df.colNum).map standardizeCol =
      numerical_cols.map (fun c => standardizeCol (p.df.colNum c)) := by
    rw [List.map_map]
    rfl
  have hmapC : (categorical_cols.map p.df.colNum).map standardizeCol =
      categorical_cols.map (fun c => standardizeCol (p.df.colNum c)) := by
    rw [List.map_map]
    rfl
  refine ⟨by rw [heq], ?_, ?_, by rw [heq]⟩
  · intro c hc
    obtain ⟨xs, hxs, hne⟩ := hnum c hc
    have hxcol : p.df.colNum c = xs := by simp [DF.colNum, hxs]
    have hnecol : p.df.colNum c ≠ [] := by rw [hxcol]; exact hne
    have hget : (normalize_features p).1.df.getCol c =
        some (Col.numCol (standardizeCol (p.df.colNum c))) := by
      rw [heq]
      show (((p.df.setColsNum numerical_cols
          ((numerical_cols.map p.df.colNum).map standardizeCol)).setColsNum
            categorical_cols
            ((categorical_cols.map p.df.colNum).map standardizeCol)).getCol c) = _
      rw [DF.getCol_setColsNum_notMem categorical_cols _ _ c (hdisjNC c hc), hmapN]
      exact DF.getCol_setColsNum_map numerical_cols _ _ c hndN hc
    exact ⟨hget, listMean_standardize _ hnecol,
      fun hv => listVar_standardize _ hnecol hv⟩
  · intro c hc
    rw [heq]
    show (((p.df.setColsNum numerical_cols
        ((numerical_cols.map p.df.colNum).map standardizeCol)).setColsNum
          categorical_cols
          ((categorical_cols.map p.df.colNum).map standardizeCol)).getCol c) = _
    rw [hmapC]
    exact DF.getCol_setColsNum_map categorical_cols _ _ c hndC hc

/-- C5 witness: the standardization facts evaluated on the post-encoding
predictor `pB`, whose `condition` column is `[0, 2]`. -/
theorem C5_normalize_standardizes_and_refits_scaler_witness :
    (normalize_features pB).2 = Except.ok () ∧
    listMean (standardizeCol (pB.df.colNum "condition")) = 0 ∧
    listVar (standardizeCol (pB.df.colNum "condition")) = 1 ∧
    (normalize_features pB).1.scaler =
      some (scalerParams (categorical_cols.map pB.df.colNum)) := by
  have h := C5_normalize_standardizes_and_refits_scaler pB ["black", "white"] rfl ?_ ?_
  · have hcond := h.2.1 "condition" (by decide)
    refine ⟨h.1, hcond.2.1, hcond.2.2 ?_, h.2.2.2⟩
    have hx : pB.df.colNum "condition" = [0, 2] := rfl
    rw [hx]
    norm_num [listVar, listMean]
  · intro c hc
    simp only [numerical_cols, List.mem_cons, List.not_mem_nil, or_false] at hc
    rcases hc with rfl | rfl | rfl
    · exact ⟨[0, 2], rfl, by simp⟩
    · exact ⟨[0, 2], rfl, by simp⟩
    · exact ⟨[0, 2], rfl, by simp⟩
  · intro c hc
    simp only [categorical_cols, List.mem_cons, List.not_mem_nil, or_false] at hc
    rcases hc with rfl | rfl | rfl | rfl | rfl | rfl | rfl
    · exact ⟨[0, 0], rfl, by simp⟩
    · exact ⟨[0, 1], rfl, by simp⟩
    · exact ⟨[0, 1], rfl, by simp⟩
    · exact ⟨[0, 1], rfl, by simp⟩
    · exact ⟨[0, 1], rfl, by simp⟩
    · exact ⟨[1, 0], rfl, by simp⟩
    · exact ⟨[0, 1], rfl, by simp⟩

theorem best_by_ne (score : Model → ℝ) (l : List Model) (h : l ≠ []) :
    ∃ best, best_by score l = some best ∧ best ∈ l ∧
      ∀ c ∈ l, score c ≤ score best := by
  cases l with
  | nil => exact absurd rfl h
  | cons a tl => exact best_by_spec score a tl

/-- C8: `optimize_hyperparameters` enumerates exactly the model-kind
grid of the specification (shown by projecting the built grid onto the
grid-searched fields), scores candidates by mean negative RMSE under k-fold
cross-validation, and replaces the held model with a best-scoring candidate
of the grid, refit (marked fitted). -/
theorem C8_optimize_exhaustive_grid_and_best
    (learner : Model → DF → List ℝ → DF → List ℝ)
    (p : Predictor) (X : DF) (y : List ℝ) (cv : ℕ) :
    (∀ q : RFParams, (rf_param_grid q).map rfTuple = rf_grid_spec) ∧
    (∀ q : GBParams, (gb_param_grid q).map gbTuple = gb_grid_spec) ∧
    (∀ q b, p.model_type = "random_forest" → p.model = some (Model.rf q b) →
       ∃ best ∈ (rf_param_grid q).map (fun r => Model.rf r false),
         (∀ c ∈ (rf_param_grid q).map (fun r => Model.rf r false),
            cross_val_neg_rmse learner c X y cv ≤ cross_val_neg_rmse learner best X y cv) ∧
         optimize_hyperparameters learner p X y cv =
           ({ p with model := some best.setFitted }, Except.ok ())) ∧
    (∀ q b, p.model_type = "gradient_boosting" → p.model = some (Model.gb q b) →
       ∃ best ∈ (gb_param_grid q).map (fun r => Model.gb r false),
         (∀ c ∈ (gb_param_grid q).map (fun r => Model.gb r false),
            cross_val_neg_rmse learner c X y cv ≤ cross_val_neg_rmse learner best X y cv) ∧
         optimize_hyperparameters learner p X y cv =
           ({ p with model := some best.setFitted }, Except.ok ())) := by
  refine ⟨fun q => rfl, fun q => rfl, ?_, ?_⟩
  · intro q b ht hm
    have hne : (rf_param_grid q).map (fun r => Model.rf r false) ≠ [] := by
      exact List.cons_ne_nil _ _
    obtain ⟨best, hbb, hmem, hle⟩ :=
      best_by_ne (fun m => cross_val_neg_rmse learner m X y cv) _ hne
    refine ⟨best, hmem, hle, ?_⟩
    unfold optimize_hyperparameters grid_search_best
    rw [hm]
    simp only [ht, if_true, if_false]
    rw [hbb]
    rfl
  · intro q b ht hm
    have hne : (gb_param_grid q).map (fun r => Model.gb r false) ≠ [] := by
      exact List.cons_ne_nil _ _
    obtain ⟨best, hbb, hmem, hle⟩ :=
      best_by_ne (fun m => cross_val_neg_rmse learner m X y cv) _ hne
    refine ⟨best, hmem, hle, ?_⟩
    unfold optimize_hyperparameters grid_search_best
    rw [hm]
    simp only [ht, if_true, if_false,
      show ("gradient_boosting" = "random_forest") = False from eq_false (by decide)]
    rw [hbb]
    rfl

/-- C8 witness: the grid-exactness equations and the replacement property
evaluated on the untrained random-forest predictor `pRF0` with a trivial
learner oracle. -/
theorem C8_optimize_exhaustive_grid_and_best_witness :
    (∀ q : RFParams, (rf_param_grid q).map rfTuple = rf_grid_spec) ∧
    (∃ best ∈ (rf_param_grid rfDefault).map (fun r => Model.rf r false),
       (∀ c ∈ (rf_param_grid rfDefault).map (fun r => Model.rf r false),
          cross_val_neg_rmse (fun _ _ _ _ => []) c dfS [1] 5 ≤
            cross_val_neg_rmse (fun _ _ _ _ => []) best dfS [1] 5) ∧
       optimize_hyperparameters (fun _ _ _ _ => []) pRF0 dfS [1] 5 =
         ({ pRF0 with model := some best.setFitted }, Except.ok ())) := by
  have h := C8_optimize_exhaustive_grid_and_best (fun _ _ _ _ => []) pRF0 dfS [1] 5
  exact ⟨h.1, h.2.2.1 rfDefault false rfl rfl⟩
